import Mathlib

/-!
Verification of the landmark-recognition inference service
(`ai_service/app.py`): a Flask endpoint that loads class labels and a
trained EfficientNet_B3 checkpoint at startup, and serves `POST /predict`
requests by fetching an image URL, preprocessing it, running a forward
pass with softmax, and returning the top class label with a confidence.

The Python source is shallowly embedded below.  Library calls whose
internals are outside the repository (PIL decoding, the network forward
pass, `requests.get`) are represented by the data they deliver to the
code under verification; everything the repository itself computes
(label parsing, URL validation, control flow of `predict`, the
preprocessing arithmetic, softmax / max selection, label fallback,
startup initialization) is embedded operation by operation.
-/

namespace AiService

/-! ### Label registry

`CLASS_NAMES`: the startup block reads `classes.txt` when it exists and
keeps each whitespace-stripped non-empty line, in file order:

    CLASS_NAMES = [line.strip() for line in f.readlines() if line.strip()]

A missing or unreadable file leaves `CLASS_NAMES = []` (the assignment
sits in a `try` whose `except` only logs).  The file contents are passed
as `Option String`: `none` models a missing/unreadable resource. -/

/-- Python `str.strip()`: remove leading and trailing whitespace
characters. -/
def pyStrip (cs : List Char) : List Char :=
  ((cs.dropWhile Char.isWhitespace).reverse.dropWhile Char.isWhitespace).reverse

/-- The line structure `f.readlines()` exposes: the segments of the
character stream delimited by `'\n'`.  (`readlines` keeps the
terminator on each line and yields no final empty line; since every
line is subsequently stripped and empty results are filtered out, the
two presentations load the same table.) -/
def splitNl : List Char → List (List Char)
  | [] => [[]]
  | c :: rest =>
      match splitNl rest with
      | [] => [[]]
      | l :: ls => if c = '\n' then [] :: l :: ls else (c :: l) :: ls

def loadClassNames : Option String → List String
  | none => []
  | some contents =>
      (((splitNl contents.data).map pyStrip).filter (fun l => l ≠ [])).map
        (fun l => String.mk l)

/-! ### Label lookup

Line 122 of `app.py`:

    label = CLASS_NAMES[class_idx] if class_idx < len(CLASS_NAMES) else f"Class {class_idx}"
-/

def labelFor (names : List String) (idx : Nat) : String :=
  if idx < names.length then names.getD idx "" else "Class " ++ toString idx

/-! ### Images and the preprocessing transform

An image is a channel-indexed grid of rational pixel values
(channel, row, column); raw decoded pixels lie in `[0, 255]`. -/

structure Img where
  width : Nat
  height : Nat
  pixel : Fin 3 → Nat → Nat → ℚ

/-- `transforms.Resize(345)`: the target size of the shorter edge is 345;
the longer edge is scaled to preserve the aspect ratio, with the same
integer truncation torchvision applies (`int(size * long / short)`). -/
def resizeDims (w h : Nat) : Nat × Nat :=
  if w ≤ h then (345, 345 * h / w) else (345 * w / h, 345)

/-- Center-aligned inverse coordinate mapping used by bilinear
resampling: destination index `i` (of `n'` samples) reads source
position `(i + 1/2) * n / n' - 1/2`, split into an integer base index
and a fractional weight in `[0, 1)`. -/
def sampleCoord (n nDst : Nat) (i : Nat) : ℤ × ℚ :=
  let s : ℚ := ((i : ℚ) + 1 / 2) * n / nDst - 1 / 2
  (⌊s⌋, Int.fract s)

/-- Clamp an integer sample index into the valid range `[0, n-1]`
(edge pixels are replicated at the borders). -/
def clampIdx (n : Nat) (z : ℤ) : Nat :=
  min z.toNat (n - 1)

/-- Linear interpolation with weight `t ∈ [0, 1]`. -/
def lerp (t a b : ℚ) : ℚ :=
  (1 - t) * a + t * b

/-- One output pixel of the bilinear resample: interpolate the four
neighbouring source pixels with the fractional weights of the
center-aligned coordinate mapping. -/
def resizePix (img : Img) (wDst hDst : Nat) (c : Fin 3) (y x : Nat) : ℚ :=
  lerp (sampleCoord img.height hDst y).2
    (lerp (sampleCoord img.width wDst x).2
      (img.pixel c (clampIdx img.height (sampleCoord img.height hDst y).1)
                   (clampIdx img.width (sampleCoord img.width wDst x).1))
      (img.pixel c (clampIdx img.height (sampleCoord img.height hDst y).1)
                   (clampIdx img.width ((sampleCoord img.width wDst x).1 + 1))))
    (lerp (sampleCoord img.width wDst x).2
      (img.pixel c (clampIdx img.height ((sampleCoord img.height hDst y).1 + 1))
                   (clampIdx img.width (sampleCoord img.width wDst x).1))
      (img.pixel c (clampIdx img.height ((sampleCoord img.height hDst y).1 + 1))
                   (clampIdx img.width ((sampleCoord img.width wDst x).1 + 1))))

/-- `transforms.Resize(345)` on a decoded RGB image: shorter edge becomes
345, aspect ratio preserved, pixels bilinearly resampled. -/
def resize (img : Img) : Img :=
  let dims := resizeDims img.width img.height
  ⟨dims.1, dims.2, fun c y x => resizePix img dims.1 dims.2 c y x⟩

/-- `round(r / 2.0)` as computed for the crop margins (Python `round`,
half-to-even). -/
def halfRound (r : Nat) : Nat :=
  if r % 2 = 0 then r / 2
  else if (r / 2) % 2 = 0 then r / 2 else r / 2 + 1

/-- `transforms.CenterCrop(300)`: a 300×300 window whose top-left corner
sits at the rounded half-margins. -/
def centerCrop (img : Img) (size : Nat) : Img :=
  let top := halfRound (img.height - size)
  let left := halfRound (img.width - size)
  ⟨size, size, fun c y x => img.pixel c (top + y) (left + x)⟩

/-- `transforms.ToTensor()`: integer pixel values in `[0, 255]` become
floats in `[0, 1]`. -/
def toTensorStep (img : Img) : Img :=
  ⟨img.width, img.height, fun c y x => img.pixel c y x / 255⟩

/-- Per-channel means of `transforms.Normalize` (`[0.485, 0.456, 0.406]`). -/
def meanC : Fin 3 → ℚ
  | 0 => 0.485
  | 1 => 0.456
  | 2 => 0.406

/-- Per-channel standard deviations of `transforms.Normalize`
(`[0.229, 0.224, 0.225]`). -/
def stdC : Fin 3 → ℚ
  | 0 => 0.229
  | 1 => 0.224
  | 2 => 0.225

/-- `transforms.Normalize([...], [...])`: per-channel
`(value - mean_c) / std_c`. -/
def normalizeStep (img : Img) : Img :=
  ⟨img.width, img.height, fun c y x => (img.pixel c y x - meanC c) / stdC c⟩

/-- The `transform` pipeline of `app.py` lines 78–86, in source order:
Resize(345), CenterCrop(300), ToTensor, Normalize. -/
def transform (img : Img) : Img :=
  normalizeStep (toTensorStep (centerCrop (resize img) 300))

/-! ### Inference block

Lines 112–119: a forward pass under `torch.no_grad()`, then

    probs = torch.nn.functional.softmax(output, dim=1)
    confidence, idx = torch.max(probs, 1)

The network forward pass (architecture and trained weights) is an
external artifact; it enters the embedding as a function from the
preprocessed tensor to the list of raw class scores (logits).  The
softmax and max selection are the repository's own operations and are
embedded exactly, over the reals. -/

noncomputable def softmax (scores : List ℝ) : List ℝ :=
  scores.map (fun x => Real.exp x / (scores.map Real.exp).sum)

/-- `torch.max` along the class dimension: the maximum value together
with the index of its first occurrence.  (`maxPair l = (index, value)`.) -/
noncomputable def maxPair : List ℝ → Nat × ℝ
  | [] => (0, 0)
  | [x] => (0, x)
  | x :: y :: xs =>
      if x < (maxPair (y :: xs)).2 then
        ((maxPair (y :: xs)).1 + 1, (maxPair (y :: xs)).2)
      else (0, x)

/-- The inference step of `predict`: forward pass, softmax over the raw
class scores, selection of the maximum probability and its index. -/
noncomputable def classifyStep (forward : Img → List ℝ) (t : Img) : Nat × ℝ :=
  let probs := softmax (forward t)
  let m := maxPair probs
  (m.1, m.2)

/-! ### Startup model initialization

Lines 62–74:

    model = None
    try:
        if os.path.exists(MODEL_FILE):
            model = get_model(NUM_CLASSES)
            checkpoint = torch.load(MODEL_FILE, map_location=device)
            model.load_state_dict(checkpoint)
            model = model.to(device).eval()
        else: ...
    except Exception as e: ...

`fileExists` models `os.path.exists(MODEL_FILE)`; `loadOk` models
whether `torch.load` and `load_state_dict` both succeed (a corrupt file
or mismatched parameter shapes raises there).  The assignment
`model = get_model(NUM_CLASSES)` happens before the checkpoint is read,
so when the load raises afterwards the `except` block leaves `model`
bound to that freshly constructed architecture — untrained and never
switched to evaluation mode. -/

structure InitModel where
  trained : Bool
  evalMode : Bool
  deriving DecidableEq, Repr

def initModel (fileExists : Bool) (loadOk : Bool) : Option InitModel :=
  if fileExists then
    if loadOk then
      some ⟨true, true⟩
    else
      some ⟨false, false⟩
  else
    none

/-! ### The `/predict` request handler

Request-side external inputs are presented as the data the handler's
library calls deliver:

* `body` is the outcome of `request.json` — `Except.error e` when the
  body is absent or not parseable as JSON (Flask raises a
  `BadRequest` exception, text `e`, from inside the `try` block);
  `Except.ok data` gives the parsed JSON object as an association list.
  A JSON value is `null` or a string (the shapes a `url` field takes).
* `fetch url` is the outcome of `requests.get(url, timeout=10)` —
  `Except.error e` when it raises (network error, timeout), otherwise
  the HTTP status code together with the outcome of
  `Image.open(BytesIO(response.content)).convert('RGB')` on the body
  (`Except.error e` when decoding raises, `Except.ok img` otherwise).

The handler's result is the HTTP response paired with the list of side
effects performed (the outbound GET, the inference pass). -/

inductive JVal where
  | null
  | str (s : String)
  deriving DecidableEq, Repr

/-- `data.get('url')` on the parsed JSON object. -/
def getField (data : List (String × JVal)) (k : String) : Option JVal :=
  (data.find? (fun p => p.1 = k)).map (fun p => p.2)

structure HttpResp where
  status : Nat
  decoded : Except String Img

structure PredictRequest where
  body : Except String (List (String × JVal))
  fetch : String → Except String HttpResp

inductive RespBody where
  | errBody (msg : String)
  | okBody (label : String) (confidence : ℝ)

structure Resp where
  status : Nat
  body : RespBody

inductive Event where
  | fetchEv (url : String)
  | inferEv
  deriving DecidableEq, Repr

/-- Process-wide state built at startup: the loaded model (its forward
pass), or `none` when uninitialized, and the label table. -/
structure ServiceState where
  model : Option (Img → List ℝ)
  classNames : List String

/-- The `predict` endpoint, lines 88–131.  `if not image_url` treats an
absent field, JSON `null` and the empty string alike as falsy.  Any
exception raised inside the `try` block (JSON parsing, fetch, decode)
is caught by `except Exception as e` and answered with
HTTP 500 `{'error': str(e)}`. -/
noncomputable def predict (st : ServiceState) (req : PredictRequest) :
    Resp × List Event :=
  match st.model with
  | none => (⟨500, .errBody "AI Engine not initialized"⟩, [])
  | some fwd =>
    match req.body with
    | .error e => (⟨500, .errBody e⟩, [])
    | .ok data =>
      match getField data "url" with
      | some (.str url) =>
        if url = "" then (⟨400, .errBody "No URL provided"⟩, [])
        else
          match req.fetch url with
          | .error e => (⟨500, .errBody e⟩, [.fetchEv url])
          | .ok resp =>
            match resp.decoded with
            | .error e => (⟨500, .errBody e⟩, [.fetchEv url])
            | .ok img =>
              let ic := classifyStep fwd (transform img)
              (⟨200, .okBody (labelFor st.classNames ic.1) ic.2⟩,
               [.fetchEv url, .inferEv])
      | _ => (⟨400, .errBody "No URL provided"⟩, [])

/-! ### Concrete inputs used by witnesses and counterexamples -/

/-- A constant 345×345 black image. -/
def imgZero : Img := ⟨345, 345, fun _ _ _ => 0⟩

/-- A forward pass producing a single raw score. -/
noncomputable def fwd0 : Img → List ℝ := fun _ => [0]

/-- A request whose JSON body is `{"url": "http://example.com/x.jpg"}`
and whose outbound GET raises a connection error. -/
def reqUrlOnly : PredictRequest :=
  ⟨.ok [("url", .str "http://example.com/x.jpg")], fun _ => .error "connection error"⟩

/-- A request whose JSON body is `{}`. -/
def reqEmptyBody : PredictRequest :=
  ⟨.ok [], fun _ => .error "connection error"⟩

/-- A request whose JSON body is `{"url": null}`. -/
def reqNullUrl : PredictRequest :=
  ⟨.ok [("url", JVal.null)], fun _ => .error "connection error"⟩

/-- A request whose JSON body is `{"url": ""}`. -/
def reqEmptyUrl : PredictRequest :=
  ⟨.ok [("url", .str "")], fun _ => .error "connection error"⟩

/-- A request whose body failed to parse as JSON (`request.json` raised). -/
def reqBadJson : PredictRequest :=
  ⟨.error "400 Bad Request: Failed to decode JSON object", fun _ => .error "connection error"⟩

/-- A request whose outbound GET completes with HTTP status 404 while
the response body nevertheless decodes as a valid image. -/
def reqNon2xxImage : PredictRequest :=
  ⟨.ok [("url", .str "http://example.com/x.jpg")], fun _ => .ok ⟨404, .ok imgZero⟩⟩

/-- A request whose outbound GET completes with HTTP status 404 and a
response body that `Image.open` cannot decode. -/
def reqNon2xxBad : PredictRequest :=
  ⟨.ok [("url", .str "http://example.com/x.jpg")],
   fun _ => .ok ⟨404, .error "cannot identify image file"⟩⟩

end AiService

namespace AiService

/-! ## Theorems -/

/-- **C6.** Label Registry load: each non-empty, whitespace-trimmed line
of the label text resource becomes one label, in file order, with empty
lines skipped and not indexed — the resource
`"Eiffel Tower\n\nColosseum\n"` yields exactly the table
`["Eiffel Tower", "Colosseum"]` — and a missing or unreadable resource
yields the empty table; moreover no loaded label is the empty string. -/
theorem loadClassNames_spec :
    loadClassNames none = [] ∧
    loadClassNames (some "Eiffel Tower\n\nColosseum\n") =
      ["Eiffel Tower", "Colosseum"] ∧
    ∀ (s : String) (l : String), l ∈ loadClassNames (some s) → l ≠ "" := by
  refine ⟨rfl, by decide, ?_⟩
  intro s l hl
  simp only [loadClassNames, List.mem_map, List.mem_filter] at hl
  obtain ⟨cs, ⟨-, hne⟩, rfl⟩ := hl
  simpa [String.ext_iff] using of_decide_eq_true hne

/-- Witness for C6: the scenario table's first entry is a non-empty
label obtained from the load. -/
theorem loadClassNames_spec_witness :
    "Eiffel Tower" ∈ loadClassNames (some "Eiffel Tower\n\nColosseum\n") ∧
    ("Eiffel Tower" : String) ≠ "" :=
  ⟨by decide, loadClassNames_spec.2.2 "Eiffel Tower\n\nColosseum\n" "Eiffel Tower" (by decide)⟩

/-- **C7.** Label lookup: an index at or past the end of the label table
produces the literal `"Class {index}"` string; an in-bounds index
produces the table entry at that index. -/
theorem labelFor_spec (names : List String) (idx : Nat) :
    (names.length ≤ idx → labelFor names idx = "Class " ++ toString idx) ∧
    (∀ h : idx < names.length, labelFor names idx = names.get ⟨idx, h⟩) := by
  constructor
  · intro h
    unfold labelFor
    rw [if_neg (by omega)]
  · intro h
    unfold labelFor
    rw [if_pos h]
    simp [List.getD_eq_getElem?_getD, List.getElem?_eq_getElem h, List.get_eq_getElem]

/-- Witness for C7: both branches at the concrete table
`["Eiffel Tower", "Colosseum"]`. -/
theorem labelFor_spec_witness :
    (["Eiffel Tower", "Colosseum"].length ≤ 5 ∧
      labelFor ["Eiffel Tower", "Colosseum"] 5 = "Class 5") ∧
    (1 < ["Eiffel Tower", "Colosseum"].length ∧
      labelFor ["Eiffel Tower", "Colosseum"] 1 = "Colosseum") :=
  ⟨⟨by decide, by
      have h := (labelFor_spec ["Eiffel Tower", "Colosseum"] 5).1 (by decide)
      simpa using h⟩,
   ⟨by decide, by
      have h := (labelFor_spec ["Eiffel Tower", "Colosseum"] 1).2 (by decide)
      simpa using h⟩⟩

/-- **C8.** A request whose JSON body lacks the `url` field, with the
model loaded, is answered with HTTP 400 `{"error": "No URL provided"}`
and no fetch or inference side effect. -/
theorem predict_missing_url (st : ServiceState) (fwd : Img → List ℝ)
    (req : PredictRequest) (data : List (String × JVal))
    (hm : st.model = some fwd) (hb : req.body = Except.ok data)
    (hu : getField data "url" = none) :
    predict st req = (⟨400, .errBody "No URL provided"⟩, []) := by
  unfold predict
  rw [hm, hb]
  simp only [hu]

/-- Witness for C8: `POST /predict` with body `{}` and a loaded model. -/
theorem predict_missing_url_witness :
    (⟨some fwd0, []⟩ : ServiceState).model = some fwd0 ∧
    reqEmptyBody.body = Except.ok [] ∧
    getField [] "url" = none ∧
    predict ⟨some fwd0, []⟩ reqEmptyBody =
      (⟨400, .errBody "No URL provided"⟩, []) :=
  ⟨rfl, rfl, rfl, predict_missing_url ⟨some fwd0, []⟩ fwd0 reqEmptyBody [] rfl rfl rfl⟩

/-- **C9.** A request whose JSON body carries a falsy `url` value —
JSON `null` or the empty string — is answered, with the model loaded,
exactly like an absent field: HTTP 400 `{"error": "No URL provided"}`
with no side effect. -/
theorem predict_falsy_url (st : ServiceState) (fwd : Img → List ℝ)
    (req : PredictRequest) (data : List (String × JVal))
    (hm : st.model = some fwd) (hb : req.body = Except.ok data)
    (hu : getField data "url" = some JVal.null ∨
          getField data "url" = some (JVal.str "")) :
    predict st req = (⟨400, .errBody "No URL provided"⟩, []) := by
  unfold predict
  rcases hu with hu | hu
  · rw [hm, hb]; simp only [hu]
  · rw [hm, hb]; simp only [hu]; rfl

/-- Witness for C9: `POST /predict` with body `{"url": null}` and a
loaded model. -/
theorem predict_falsy_url_witness :
    (⟨some fwd0, []⟩ : ServiceState).model = some fwd0 ∧
    reqNullUrl.body = Except.ok [("url", JVal.null)] ∧
    getField [("url", JVal.null)] "url" = some JVal.null ∧
    predict ⟨some fwd0, []⟩ reqNullUrl =
      (⟨400, .errBody "No URL provided"⟩, []) :=
  ⟨rfl, rfl, rfl,
   predict_falsy_url ⟨some fwd0, []⟩ fwd0 reqNullUrl [("url", JVal.null)]
     rfl rfl (Or.inl rfl)⟩

/-- **C10.** A request whose body is absent or not parseable as JSON
(so `request.json` raises inside the `try` block) is answered, with the
model loaded, by the catch-all branch: HTTP 500 with the exception text,
not the HTTP 400 bad-request response. -/
theorem predict_bad_body (st : ServiceState) (fwd : Img → List ℝ)
    (req : PredictRequest) (e : String)
    (hm : st.model = some fwd) (hb : req.body = Except.error e) :
    predict st req = (⟨500, .errBody e⟩, []) := by
  unfold predict
  rw [hm, hb]


/-- Witness for C10: an unparseable body with a loaded model yields
HTTP 500 carrying the raised exception's text. -/
theorem predict_bad_body_witness :
    (⟨some fwd0, []⟩ : ServiceState).model = some fwd0 ∧
    reqBadJson.body = Except.error "400 Bad Request: Failed to decode JSON object" ∧
    predict ⟨some fwd0, []⟩ reqBadJson =
      (⟨500, .errBody "400 Bad Request: Failed to decode JSON object"⟩, []) :=
  ⟨rfl, rfl,
   predict_bad_body ⟨some fwd0, []⟩ fwd0 reqBadJson
     "400 Bad Request: Failed to decode JSON object" rfl rfl⟩

/-- **C1.** Startup initialization at the failing input: when the
checkpoint file exists but loading it fails (corrupt contents or
mismatched shapes), the process-wide model reference is *not* left
unset — `model = get_model(NUM_CLASSES)` ran before the load raised, so
the reference holds an untrained architecture that never entered
evaluation mode, and requests are served (the fetch is attempted)
instead of being refused.  Only a missing file leaves the reference
`None`, and only then is every request answered with HTTP 500
`{"error": "AI Engine not initialized"}` with no side effect. -/
theorem initModel_failure_behavior :
    initModel true false = some ⟨false, false⟩ ∧
    initModel true false ≠ none ∧
    initModel false true = none ∧
    (predict ⟨none, []⟩ reqUrlOnly).1.status = 500 ∧
    (predict ⟨none, []⟩ reqUrlOnly).1.body =
      RespBody.errBody "AI Engine not initialized" ∧
    (predict ⟨none, []⟩ reqUrlOnly).2 = [] ∧
    (predict ⟨some fwd0, []⟩ reqUrlOnly).2 =
      [Event.fetchEv "http://example.com/x.jpg"] :=
  ⟨rfl, by decide, rfl, rfl, rfl, rfl, rfl⟩

/-- **C3.** The inference step (forward pass, softmax, max-selection) is
deterministic: two invocations on the identical tensor with unchanged
model state yield the identical (index, confidence) pair. -/
theorem classifyStep_deterministic (fwd : Img → List ℝ) (t₁ t₂ : Img)
    (h : t₁ = t₂) :
    classifyStep fwd t₁ = classifyStep fwd t₂ := by
  rw [h]

/-- Witness for C3: two invocations on the same concrete tensor. -/
theorem classifyStep_deterministic_witness :
    imgZero = imgZero ∧
    classifyStep fwd0 imgZero = classifyStep fwd0 imgZero :=
  ⟨rfl, classifyStep_deterministic fwd0 imgZero imgZero rfl⟩

/-- **C2 counterexample.** The handler never inspects the HTTP status
of the fetched response: with the model loaded and a GET completing
with status 404 (non-2xx) whose body decodes as a valid image, the
handler answers with a success response (HTTP 200), not HTTP 500 — so
the claim is false at this input for this response body. -/
theorem predict_non2xx_success_cex :
    (⟨some fwd0, []⟩ : ServiceState).model ≠ none ∧
    reqNon2xxImage.fetch "http://example.com/x.jpg" = .ok ⟨404, .ok imgZero⟩ ∧
    ¬ (200 ≤ 404 ∧ 404 < 300) ∧
    (predict ⟨some fwd0, []⟩ reqNon2xxImage).1.status = 200 ∧
    (predict ⟨some fwd0, []⟩ reqNon2xxImage).1.status ≠ 500 :=
  ⟨by simp, rfl, by omega, rfl, by
    intro hc
    have h2 : (predict ⟨some fwd0, []⟩ reqNon2xxImage).1.status = 200 := rfl
    omega⟩

/-- **C2 amended.** When the model is loaded and the GET completes with
a non-2xx status, the handler responds with HTTP 500 carrying the
decode failure's text exactly when the response body fails to decode as
an image; the status code itself is never consulted. -/
theorem predict_non2xx_undecodable (st : ServiceState) (fwd : Img → List ℝ)
    (req : PredictRequest) (data : List (String × JVal)) (url : String)
    (resp : HttpResp) (e : String)
    (hm : st.model = some fwd) (hb : req.body = Except.ok data)
    (hu : getField data "url" = some (.str url)) (hne : url ≠ "")
    (hf : req.fetch url = Except.ok resp)
    (_hs : ¬ (200 ≤ resp.status ∧ resp.status < 300))
    (hd : resp.decoded = Except.error e) :
    predict st req = (⟨500, .errBody e⟩, [.fetchEv url]) := by
  unfold predict
  rw [hm, hb]
  simp only [hu, if_neg hne, hf, hd]

/-- Witness for the amended C2: a 404 response whose body is not an
image yields HTTP 500 with the decode error's text. -/
theorem predict_non2xx_undecodable_witness :
    ((⟨some fwd0, []⟩ : ServiceState).model = some fwd0 ∧
     reqNon2xxBad.body = Except.ok [("url", .str "http://example.com/x.jpg")] ∧
     getField [("url", .str "http://example.com/x.jpg")] "url" =
       some (.str "http://example.com/x.jpg") ∧
     "http://example.com/x.jpg" ≠ "" ∧
     reqNon2xxBad.fetch "http://example.com/x.jpg" =
       Except.ok ⟨404, .error "cannot identify image file"⟩ ∧
     ¬ (200 ≤ 404 ∧ 404 < 300)) ∧
    predict ⟨some fwd0, []⟩ reqNon2xxBad =
      (⟨500, .errBody "cannot identify image file"⟩,
       [.fetchEv "http://example.com/x.jpg"]) :=
  ⟨⟨rfl, rfl, rfl, by decide, rfl, by omega⟩,
   predict_non2xx_undecodable ⟨some fwd0, []⟩ fwd0 reqNon2xxBad
     [("url", .str "http://example.com/x.jpg")] "http://example.com/x.jpg"
     ⟨404, .error "cannot identify image file"⟩ "cannot identify image file"
     rfl rfl rfl (by decide) rfl (by decide) rfl⟩

/-! ### Helper lemmas about `maxPair` and `softmax` -/

theorem maxPair_mem (l : List ℝ) (h : l ≠ []) : (maxPair l).2 ∈ l := by
  induction l with
  | nil => exact absurd rfl h
  | cons a t ih =>
    cases t with
    | nil => simp [maxPair]
    | cons b u =>
      by_cases hc : a < (maxPair (b :: u)).2
      · simp only [maxPair, if_pos hc]
        exact List.mem_cons_of_mem a (ih (by simp))
      · simp [maxPair, if_neg hc]

theorem maxPair_le (l : List ℝ) : ∀ x ∈ l, x ≤ (maxPair l).2 := by
  induction l with
  | nil => simp
  | cons a t ih =>
    cases t with
    | nil => simp [maxPair]
    | cons b u =>
      intro x hx
      by_cases hc : a < (maxPair (b :: u)).2
      · simp only [maxPair, if_pos hc]
        rcases List.mem_cons.1 hx with rfl | hx'
        · exact le_of_lt hc
        · exact ih x hx'
      · simp only [maxPair, if_neg hc]
        rcases List.mem_cons.1 hx with rfl | hx'
        · exact le_refl x
        · exact le_trans (ih x hx') (not_lt.1 hc)

theorem maxPair_get? (l : List ℝ) (h : l ≠ []) :
    l.get? (maxPair l).1 = some (maxPair l).2 := by
  induction l with
  | nil => exact absurd rfl h
  | cons a t ih =>
    cases t with
    | nil => simp [maxPair]
    | cons b u =>
      by_cases hc : a < (maxPair (b :: u)).2
      · simp only [maxPair, if_pos hc, List.get?_cons_succ]
        exact ih (by simp)
      · simp [maxPair, if_neg hc]

theorem sum_map_div (l : List ℝ) (S : ℝ) :
    (l.map (fun x => x / S)).sum = l.sum / S := by
  induction l with
  | nil => simp
  | cons a t ih => simp [ih, add_div]

theorem expSum_pos (l : List ℝ) (h : l ≠ []) :
    0 < (l.map Real.exp).sum := by
  apply List.sum_pos
  · intro x hx
    rcases List.mem_map.1 hx with ⟨y, -, rfl⟩
    exact Real.exp_pos y
  · simpa using h

theorem softmax_eq_map_div (l : List ℝ) :
    softmax l = (l.map Real.exp).map (fun x => x / (l.map Real.exp).sum) := by
  simp [softmax, List.map_map, Function.comp]

/-- **C5.** The inference step's confidence is the maximum of the
softmax distribution over the raw class scores and lies in `[0, 1]`;
the softmax distribution sums to exactly 1; and the returned index is
an index at which that maximum is attained. -/
theorem classifyStep_softmax_spec (fwd : Img → List ℝ) (t : Img)
    (h : fwd t ≠ []) :
    (softmax (fwd t)).sum = 1 ∧
    0 ≤ (classifyStep fwd t).2 ∧
    (classifyStep fwd t).2 ≤ 1 ∧
    (∀ p ∈ softmax (fwd t), p ≤ (classifyStep fwd t).2) ∧
    (softmax (fwd t)).get? (classifyStep fwd t).1 =
      some (classifyStep fwd t).2 := by
  have hS : 0 < ((fwd t).map Real.exp).sum := expSum_pos (fwd t) h
  have hne : softmax (fwd t) ≠ [] := by
    simp [softmax]
    exact h
  have hnonneg : ∀ p ∈ softmax (fwd t), 0 ≤ p := by
    intro p hp
    simp only [softmax, List.mem_map] at hp
    rcases hp with ⟨y, -, rfl⟩
    exact div_nonneg (Real.exp_pos y).le hS.le
  have hle1 : ∀ p ∈ softmax (fwd t), p ≤ 1 := by
    intro p hp
    simp only [softmax, List.mem_map] at hp
    rcases hp with ⟨y, hy, rfl⟩
    rw [div_le_one hS]
    refine List.single_le_sum ?_ (Real.exp y) (List.mem_map_of_mem Real.exp hy)
    intro x hx
    rcases List.mem_map.1 hx with ⟨z, -, rfl⟩
    exact (Real.exp_pos z).le
  have hcls : classifyStep fwd t = maxPair (softmax (fwd t)) := rfl
  have hmem : (classifyStep fwd t).2 ∈ softmax (fwd t) := by
    rw [hcls]; exact maxPair_mem _ hne
  refine ⟨?_, hnonneg _ hmem, hle1 _ hmem, ?_, ?_⟩
  · rw [softmax_eq_map_div, sum_map_div, div_self (ne_of_gt hS)]
  · intro p hp
    rw [hcls]
    exact maxPair_le _ p hp
  · rw [hcls]
    exact maxPair_get? _ hne

/-! ### Helper lemmas about the preprocessing transform -/

theorem lerp_mem_Icc (t a b : ℚ) (ht0 : 0 ≤ t) (ht1 : t ≤ 1)
    (ha : 0 ≤ a ∧ a ≤ 255) (hb : 0 ≤ b ∧ b ≤ 255) :
    0 ≤ lerp t a b ∧ lerp t a b ≤ 255 := by
  obtain ⟨ha0, ha1⟩ := ha
  obtain ⟨hb0, hb1⟩ := hb
  unfold lerp
  constructor <;> nlinarith

theorem resizePix_bounds (img : Img)
    (hpix : ∀ c y x, 0 ≤ img.pixel c y x ∧ img.pixel c y x ≤ 255)
    (wD hD : Nat) (c : Fin 3) (y x : Nat) :
    0 ≤ resizePix img wD hD c y x ∧ resizePix img wD hD c y x ≤ 255 := by
  have hy0 : (0 : ℚ) ≤ (sampleCoord img.height hD y).2 := Int.fract_nonneg _
  have hy1 : (sampleCoord img.height hD y).2 ≤ 1 := (Int.fract_lt_one _).le
  have hx0 : (0 : ℚ) ≤ (sampleCoord img.width wD x).2 := Int.fract_nonneg _
  have hx1 : (sampleCoord img.width wD x).2 ≤ 1 := (Int.fract_lt_one _).le
  unfold resizePix
  exact lerp_mem_Icc _ _ _ hy0 hy1
    (lerp_mem_Icc _ _ _ hx0 hx1 (hpix _ _ _) (hpix _ _ _))
    (lerp_mem_Icc _ _ _ hx0 hx1 (hpix _ _ _) (hpix _ _ _))

theorem resize_min_edge (img : Img)
    (hw : 345 ≤ img.width) (hh : 345 ≤ img.height) :
    min (resize img).width (resize img).height = 345 := by
  have hw0 : 0 < img.width := by omega
  have hh0 : 0 < img.height := by omega
  have hwidth : (resize img).width = (resizeDims img.width img.height).1 := rfl
  have hheight : (resize img).height = (resizeDims img.width img.height).2 := rfl
  rw [hwidth, hheight]
  unfold resizeDims
  by_cases hc : img.width ≤ img.height
  · rw [if_pos hc]
    have h1 : 345 ≤ 345 * img.height / img.width := by
      rw [Nat.le_div_iff_mul_le hw0]
      calc 345 * img.width ≤ 345 * img.height := Nat.mul_le_mul_left 345 hc
        _ = 345 * img.height := rfl
    simpa using Nat.min_eq_left h1
  · rw [if_neg hc]
    have h1 : 345 ≤ 345 * img.width / img.height := by
      rw [Nat.le_div_iff_mul_le hh0]
      exact Nat.mul_le_mul_left 345 (le_of_not_le hc)
    simpa using Nat.min_eq_right h1

/-- **C4.** For a valid 3-channel image whose shorter edge is at least
345 pixels (raw pixel values in `[0, 255]`), the preprocessing pipeline
applies, in fixed order, Resize(345) (shorter edge exactly 345,
aspect ratio preserved), CenterCrop(300), ToTensor (scale to `[0, 1]`)
and per-channel Normalize with the fixed ImageNet constants, producing
a tensor of shape 3×300×300 whose every value lies in
`[(0 - mean_c)/std_c, (1 - mean_c)/std_c]`. -/
theorem transform_spec (img : Img)
    (hw : 345 ≤ img.width) (hh : 345 ≤ img.height)
    (hpix : ∀ c y x, 0 ≤ img.pixel c y x ∧ img.pixel c y x ≤ 255) :
    transform img = normalizeStep (toTensorStep (centerCrop (resize img) 300)) ∧
    (transform img).width = 300 ∧
    (transform img).height = 300 ∧
    min (resize img).width (resize img).height = 345 ∧
    ∀ (c : Fin 3) (y x : Nat),
      (0 - meanC c) / stdC c ≤ (transform img).pixel c y x ∧
      (transform img).pixel c y x ≤ (1 - meanC c) / stdC c := by
  refine ⟨rfl, rfl, rfl, resize_min_edge img hw hh, ?_⟩
  intro c y x
  have hs : 0 < stdC c := by fin_cases c <;> norm_num [stdC]
  have hval : (transform img).pixel c y x =
      ((resize img).pixel c (halfRound ((resize img).height - 300) + y)
          (halfRound ((resize img).width - 300) + x) / 255 - meanC c) / stdC c := rfl
  have hres := resizePix_bounds img hpix (resize img).width (resize img).height c
      (halfRound ((resize img).height - 300) + y)
      (halfRound ((resize img).width - 300) + x)
  have hraw : 0 ≤ (resize img).pixel c (halfRound ((resize img).height - 300) + y)
        (halfRound ((resize img).width - 300) + x) ∧
      (resize img).pixel c (halfRound ((resize img).height - 300) + y)
        (halfRound ((resize img).width - 300) + x) ≤ 255 := hres
  have h01 : 0 ≤ (resize img).pixel c (halfRound ((resize img).height - 300) + y)
        (halfRound ((resize img).width - 300) + x) / 255 ∧
      (resize img).pixel c (halfRound ((resize img).height - 300) + y)
        (halfRound ((resize img).width - 300) + x) / 255 ≤ 1 := by
    constructor
    · exact div_nonneg hraw.1 (by norm_num)
    · rw [div_le_one (by norm_num : (0:ℚ) < 255)]
      exact hraw.2
  rw [hval]
  constructor
  · exact (div_le_div_iff_of_pos_right hs).mpr (by linarith [h01.1])
  · exact (div_le_div_iff_of_pos_right hs).mpr (by linarith [h01.2])

/-- Witness for C4: the transform at a concrete 345×345 black image. -/
theorem transform_spec_witness :
    (345 ≤ imgZero.width ∧ 345 ≤ imgZero.height ∧
     ∀ (c : Fin 3) (y x : Nat),
       0 ≤ imgZero.pixel c y x ∧ imgZero.pixel c y x ≤ 255) ∧
    ((transform imgZero).width = 300 ∧
     (transform imgZero).height = 300 ∧
     min (resize imgZero).width (resize imgZero).height = 345) :=
  ⟨⟨by decide, by decide,
    fun c y x => ⟨le_refl 0, by norm_num [imgZero]⟩⟩,
   by
     have h := transform_spec imgZero (by decide) (by decide)
       (fun c y x => ⟨le_refl 0, by norm_num [imgZero]⟩)
     exact ⟨h.2.1, h.2.2.1, h.2.2.2.1⟩⟩

/-- Witness for C5: the inference step at a concrete forward pass
yielding one raw score. -/
theorem classifyStep_softmax_spec_witness :
    fwd0 imgZero ≠ [] ∧
    ((softmax (fwd0 imgZero)).sum = 1 ∧
     0 ≤ (classifyStep fwd0 imgZero).2 ∧
     (classifyStep fwd0 imgZero).2 ≤ 1 ∧
     (∀ p ∈ softmax (fwd0 imgZero), p ≤ (classifyStep fwd0 imgZero).2) ∧
     (softmax (fwd0 imgZero)).get? (classifyStep fwd0 imgZero).1 =
       some (classifyStep fwd0 imgZero).2) :=
  ⟨by simp [fwd0], classifyStep_softmax_spec fwd0 imgZero (by simp [fwd0])⟩

end AiService
